import Mathlib

/-!
Verification of the resolution-and-resumable-transfer engine of the
slow-stac repository, as a shallow embedding in Lean 4.

The embedding covers:
* the resumable transfer executor (src/download_plan.rs, try_download and
  DownloadPlan::execute), modelled over an explicit file-system state and a
  mocked object-storage capability (head / ranged get), recording the list
  of network calls that were issued;
* download-plan persistence (DownloadPlan read/write via serde_json),
  modelled at the level of a JSON syntax tree;
* the image-selection preconditions (src/image_selection.rs);
* the Copernicus manifest resolver (src/copernicus.rs filter_data_objects,
  src/copernicus/manifest.rs Manifest::parse and DataObject::new) over an
  XML node-tree model mirroring roxmltree;
* the two plan builders (copernicus generate_download_plan and
  element84 generate_download_plan), with the remote catalog and manifest
  fetches abstracted as oracles.

Bytes are modelled as Nat, file contents as List Nat, the file system as a
partial map from path strings to contents. Directories are not modelled
(create_dir_all has no observable effect on the properties below).
-/

/-- A byte is modelled as a natural number; we never need overflow facts. -/
abbrev Byte := Nat

/-- File-system state: a partial map from path to file content. -/
def FS := String → Option (List Byte)

/-- Write (or remove, with none) a file at a path. -/
def FS.upd (fs : FS) (p : String) (v : Option (List Byte)) : FS :=
  fun q => if q = p then v else fs q

@[simp] theorem FS.upd_same (fs : FS) (p : String) (v : Option (List Byte)) :
    FS.upd fs p v p = v := by
  simp [FS.upd]

@[simp] theorem FS.upd_other (fs : FS) (p q : String) (v : Option (List Byte))
    (h : q ≠ p) : FS.upd fs p v q = fs q := by
  simp [FS.upd, h]

/-- One network call issued by the executor against the storage capability
(the S3ObjOps trait: head_object or get_object_range). -/
inductive NetCall where
  | head (bucket key : String)
  | getRange (bucket key : String) (startByte endByte : Nat)
deriving DecidableEq

/-- Errors of the engine, mirroring the anyhow error messages in the source.
sizeUnknown is the message produced at download_plan.rs when
HeadObjectOutput.content_length() is None; noIds and noProducts are the two
selection-precondition failures of generate_download_plan; noMatch carries
the product id named by filter_data_objects; noSection is the fatal error of
Manifest::parse; fetchFail stands for a propagated catalog or storage fetch
error; planNotFound and planBadJson are the two failure modes of
DownloadPlan::read; noAssets and badUrl are the element84 failures. -/
inductive DlError where
  | sizeUnknown
  | noIds
  | noProducts
  | noMatch (productId : String)
  | noSection
  | fetchFail (msg : String)
  | planNotFound (path : String)
  | planBadJson (path : String)
  | noAssets
  | badUrl (url : String)
deriving DecidableEq

/-- The mocked storage capability. headLen is what head_object reports as
content_length (none models an absent length). rangeBody gives, for a byte
range, the chunk sequence streamed back by get_object_range; the download
loop only ever sees the chunks, so faithfulness of the mock to a remote
object content is stated as a hypothesis where a claim needs it. Transport
failures of the calls themselves are outside this model. -/
structure SProvider where
  headLen : String → String → Option Nat
  rangeBody : String → String → Nat → Nat → List (List Byte)

/-- Path of the sibling partial file: output ++ ".partial" in the source. -/
def partPath (output : String) : String := output ++ ".partial"

/-- The chunk-append loop of try_download: write_all each chunk to the
partial file in order. -/
def writeChunks (file : List Byte) : List (List Byte) → List Byte
  | [] => file
  | c :: rest => writeChunks (file ++ c) rest

theorem writeChunks_eq (file : List Byte) (cs : List (List Byte)) :
    writeChunks file cs = file ++ cs.flatten := by
  induction cs generalizing file with
  | nil => simp [writeChunks]
  | cons c rest ih => simp [writeChunks, ih]

/-- Result of executing one transfer task: outcome, final file system and
the network calls issued, in order. -/
structure TDResult where
  res : Except DlError Unit
  fs : FS
  calls : List NetCall

/-- Shallow embedding of try_download (src/download_plan.rs).
Steps in source order: return early when the destination exists; open the
partial file in create-append mode (its length is byteCount); head_object,
failing with sizeUnknown when no content length is reported; when
byteCount < totalSize, get_object_range for bytes
[byteCount, totalSize - 1] and append every received chunk; finally rename
the partial file onto the destination. -/
def try_download (p : SProvider) (bucket key output : String) (fs : FS) :
    TDResult :=
  match fs output with
  | some _ => ⟨.ok (), fs, []⟩
  | none =>
    let pp := partPath output
    let partContent := (fs pp).getD []
    let byteCount := partContent.length
    let fs1 := FS.upd fs pp (some partContent)
    match p.headLen bucket key with
    | none => ⟨.error .sizeUnknown, fs1, [.head bucket key]⟩
    | some totalSize =>
      if byteCount < totalSize then
        let chunks := p.rangeBody bucket key byteCount (totalSize - 1)
        let newPart := writeChunks partContent chunks
        let fs2 := FS.upd fs1 pp (some newPart)
        let fs3 := FS.upd (FS.upd fs2 pp none) output (some newPart)
        ⟨.ok (), fs3, [.head bucket key, .getRange bucket key byteCount (totalSize - 1)]⟩
      else
        let fs3 := FS.upd (FS.upd fs1 pp none) output (some partContent)
        ⟨.ok (), fs3, [.head bucket key]⟩

/-- A transfer task as in src/download_plan.rs (DownloadTask). -/
structure DownloadTask where
  bucket : String
  key : String
  output : String
deriving DecidableEq

/-- Result of executing a plan: outcome, final file system, network calls
in order, and the tasks that were attempted, in order. -/
structure ExecResult where
  res : Except DlError Unit
  fs : FS
  calls : List NetCall
  attempted : List DownloadTask

/-- Shallow embedding of DownloadPlan::execute: run try_download on each
task in list order, propagating the first error (the ? operator) without
attempting later tasks. -/
def executePlan (p : SProvider) : List DownloadTask → FS → ExecResult
  | [], fs => ⟨.ok (), fs, [], []⟩
  | t :: ts, fs =>
    let r := try_download p t.bucket t.key t.output fs
    match r.res with
    | .error e => ⟨.error e, r.fs, r.calls, [t]⟩
    | .ok _ =>
      let rest := executePlan p ts r.fs
      ⟨rest.res, rest.fs, r.calls ++ rest.calls, t :: rest.attempted⟩

/-- Modelled from the spec: the DownloadPlan record. The download_plan.rs
file present in src is an older revision holding only the task list, while
its callers in this repository (main.rs reads plan.selection_id to pick the
provider, and the element84 builder constructs the plan with the selection
id) require the selection_id field; the spec gives the persisted document
as a record with selection_id and tasks, which is what we model. -/
structure DownloadPlan where
  selection_id : String
  tasks : List DownloadTask
deriving DecidableEq

/-- JSON syntax trees, the target of the serde_json serialization used by
DownloadPlan::write and DownloadPlan::read. The string rendering and
re-parsing performed by serde_json itself is an external collaborator and
is modelled as storing the tree. -/
inductive Json where
  | str (s : String)
  | num (n : Int)
  | arr (xs : List Json)
  | obj (fields : List (String × Json))

/-- First field of a JSON object with the given name, as serde lookup. -/
def jGet (j : Json) (k : String) : Option Json :=
  match j with
  | .obj fs => (fs.find? (fun a => a.1 = k)).map (fun a => a.2)
  | _ => none

/-- Expect a JSON string. -/
def jStr : Option Json → Option String
  | some (.str s) => some s
  | _ => none

/-- Serialization of one task, mirroring the derived Serialize of
DownloadTask with fields bucket, key, output. -/
def taskToJson (t : DownloadTask) : Json :=
  .obj [("bucket", .str t.bucket), ("key", .str t.key), ("output", .str t.output)]

/-- Deserialization of one task, mirroring the derived Deserialize. -/
def taskFromJson (j : Json) : Option DownloadTask :=
  match jStr (jGet j "bucket"), jStr (jGet j "key"), jStr (jGet j "output") with
  | some b, some k, some o => some ⟨b, k, o⟩
  | _, _, _ => none

/-- Serialization of a plan per the persisted plan document shape. -/
def planToJson (p : DownloadPlan) : Json :=
  .obj [("selection_id", .str p.selection_id),
        ("tasks", .arr (p.tasks.map taskToJson))]

/-- Deserialization of the task array; any element failing fails the
whole array, as serde sequence deserialization does. -/
def tasksFromJson : List Json → Option (List DownloadTask)
  | [] => some []
  | x :: xs =>
    match taskFromJson x with
    | none => none
    | some t =>
      match tasksFromJson xs with
      | none => none
      | some ts => some (t :: ts)

/-- Deserialization of a plan; any structural mismatch fails. -/
def planFromJson (j : Json) : Option DownloadPlan :=
  match jStr (jGet j "selection_id"), jGet j "tasks" with
  | some sid, some (.arr xs) =>
    match tasksFromJson xs with
    | some ts => some ⟨sid, ts⟩
    | none => none
  | _, _ => none

/-- File system holding JSON documents, for plan persistence. -/
def JFS := String → Option Json

/-- DownloadPlan::write: serialize and store at the path (fs::write
overwrites existing content). -/
def planWrite (p : DownloadPlan) (path : String) (jfs : JFS) : JFS :=
  fun q => if q = path then some (planToJson p) else jfs q

/-- DownloadPlan::read: load the document and deserialize; a missing file
is the fs::read_to_string failure, a structural mismatch the serde_json
failure. -/
def planRead (jfs : JFS) (path : String) : Except DlError DownloadPlan :=
  match jfs path with
  | none => .error (.planNotFound path)
  | some j =>
    match planFromJson j with
    | some p => .ok p
    | none => .error (.planBadJson path)

/-- A product row of a selection (src/image_selection.rs, Product). -/
structure Product where
  id : String
  name : String
  download : Bool
deriving DecidableEq

/-- An image selection (src/image_selection.rs, ImageSelection). -/
structure ImageSelection where
  id : String
  provider : String
  name : String
  description : String
  docs : String
  ids_to_download : List String
  products : List Product
deriving DecidableEq

/-- ImageSelection::products_to_download: the products flagged download,
none when that filter is empty. -/
def productsToDownload (s : ImageSelection) : Option (List Product) :=
  let td := s.products.filter (fun p => p.download)
  if td.isEmpty then none else some td

/-- ImageSelection::ids_to_download: none when the identifier list is
empty, else the list with duplicates removed. The source deduplicates
through a HashSet whose iteration order is unspecified; we use List.dedup,
and every property proved below about the result is insensitive to the
order of this list. -/
def idsToDownload (s : ImageSelection) : Option (List String) :=
  if s.ids_to_download.isEmpty then none else some s.ids_to_download.dedup

/-- Occurrence of pat as a contiguous run inside hay, the behaviour of the
Rust str::contains with a string pattern. -/
def listContains (hay pat : List Char) : Bool :=
  match hay with
  | [] => pat.isEmpty
  | _ :: t => pat.isPrefixOf hay || listContains t pat

/-- String containment, Rust str::contains. -/
def strContains (hay pat : String) : Bool :=
  listContains hay.data pat.data

/-- A manifest data object (src/copernicus/manifest.rs, DataObject). -/
structure DataObject where
  id : String
  filesize : Nat
  relative_href : String
  checksum_algorithm : String
  checksum : String
deriving DecidableEq

/-- Shallow embedding of filter_data_objects (src/copernicus.rs): for each
selected product, the first data object whose id contains the product id as
a substring, else an error naming that product id; the whole call fails on
the first unmatched product. The Rust searches the entries of a HashMap
keyed by object id, whose iteration order is unspecified; the list argument
here stands for that iteration order, and the uniqueness property proved
below holds for every order. -/
def filter_data_objects : List Product → List DataObject → Except DlError (List DataObject)
  | [], _ => .ok []
  | p :: ps, objs =>
    match objs.find? (fun o => strContains o.id p.id) with
    | none => .error (.noMatch p.id)
    | some o =>
      match filter_data_objects ps objs with
      | .error e => .error e
      | .ok rest => .ok (o :: rest)

/-- XML node trees, the model of roxmltree nodes used by Manifest::parse.
The textual XML parse performed by roxmltree is an external collaborator;
the embedding starts from the tree. -/
inductive Xml where
  | elem (tag : String) (attrs : List (String × String)) (children : List Xml)
  | text (s : String)

/-- roxmltree has_tag_name: true only for element nodes with that tag. -/
def Xml.tagIs (t : String) : Xml → Bool
  | .elem tg _ _ => tg = t
  | .text _ => false

/-- roxmltree attribute lookup; text nodes carry no attributes. -/
def Xml.attr (n : Xml) (k : String) : Option String :=
  match n with
  | .elem _ attrs _ => (attrs.find? (fun a => a.1 = k)).map (fun a => a.2)
  | .text _ => none

/-- Direct children of a node. -/
def Xml.childList : Xml → List Xml
  | .elem _ _ cs => cs
  | .text _ => []

/-- roxmltree text(): for a text node its value, for an element the value
of its first child when that child is a text node. -/
def Xml.textOf : Xml → Option String
  | .text s => some s
  | .elem _ _ cs =>
    match cs with
    | .text s :: _ => some s
    | _ => none

mutual
/-- All descendants of a node including itself, in document order, as the
roxmltree descendants axis. -/
def Xml.descendants : Xml → List Xml
  | .text s => [.text s]
  | .elem t a cs => .elem t a cs :: Xml.descendantsList cs
/-- Descendants of a forest, in document order. -/
def Xml.descendantsList : List Xml → List Xml
  | [] => []
  | x :: xs => x.descendants ++ Xml.descendantsList xs
end

/-- DataObject::extract_id: the ID attribute. -/
def extractId (n : Xml) : Option String := n.attr "ID"

/-- DataObject::extract_filesize: the size attribute of the first
byteStream child, parsed as u64 (parse fails beyond u64::MAX; leading +
signs accepted by the Rust parser are not modelled). -/
def extractFilesize (n : Xml) : Option Nat :=
  match n.childList.find? (Xml.tagIs "byteStream") with
  | none => none
  | some b =>
    match b.attr "size" with
    | none => none
    | some s =>
      match s.toNat? with
      | none => none
      | some v => if v < 2 ^ 64 then some v else none

/-- str::strip_prefix with pattern "./": the remainder, or none when the
string does not start with it. -/
def stripDotSlash (s : String) : Option String :=
  if s.startsWith "./" then some (s.drop 2) else none

/-- DataObject::extract_relative_href: href attribute of the first
fileLocation descendant, with a leading ./ stripped (its absence skips the
object, as in the source). -/
def extractRelativeHref (n : Xml) : Option String :=
  match n.descendants.find? (Xml.tagIs "fileLocation") with
  | none => none
  | some f =>
    match f.attr "href" with
    | none => none
    | some h => stripDotSlash h

/-- DataObject::extract_checksum_algorithm: checksumName attribute of the
first checksum descendant. -/
def extractChecksumAlg (n : Xml) : Option String :=
  match n.descendants.find? (Xml.tagIs "checksum") with
  | none => none
  | some c => c.attr "checksumName"

/-- DataObject::extract_checksum: text content of the first checksum
descendant. -/
def extractChecksumText (n : Xml) : Option String :=
  match n.descendants.find? (Xml.tagIs "checksum") with
  | none => none
  | some c => c.textOf

/-- DataObject::new: all five extractions must succeed, else none. -/
def dataObjectNew (n : Xml) : Option DataObject := do
  let id ← extractId n
  let filesize ← extractFilesize n
  let rel ← extractRelativeHref n
  let alg ← extractChecksumAlg n
  let ck ← extractChecksumText n
  pure ⟨id, filesize, rel, alg, ck⟩

/-- Manifest::parse: locate the first dataObjectSection descendant of the
document (fatal error when absent) and keep, in order, those children that
DataObject::new accepts, silently skipping the rest. -/
def manifestParse (doc : Xml) : Except DlError (List DataObject) :=
  match doc.descendants.find? (Xml.tagIs "dataObjectSection") with
  | none => .error .noSection
  | some sec => .ok ((Xml.childList sec).filterMap dataObjectNew)

/-- Path::file_name of a slash-separated path: the last non-empty
component (for the keys built here, which contain no . or .. components
and are non-empty). -/
def baseName (s : String) : String :=
  (((s.splitOn "/").filter (fun c => ¬ c.isEmpty)).getLastD "")

/-- PathBuf::join for a relative right operand. -/
def pathJoin (a b : String) : String := a ++ "/" ++ b

/-- What Manifest::fetch yields for one scene id: the bucket and directory
key extracted from the catalog record (named prefix in the source), plus
the parsed data objects of the fetched manifest. -/
structure ManifestData where
  bucket : String
  dirKey : String
  objects : List DataObject
deriving DecidableEq

/-- The remote side of the Copernicus resolver: Manifest::fetch composed
with Manifest::parse for one scene id (one catalog fetch and one manifest
fetch per call), as an oracle. -/
def MOracle := String → Except DlError ManifestData

/-- Result of a plan builder: the built task list or the first error, and
the scene ids for which a catalog-and-manifest (or catalog) fetch was
performed, in order. -/
structure GenResult where
  res : Except DlError (List DownloadTask)
  fetched : List String

/-- Task construction of the Copernicus builder for the matched data
objects of one scene: key is prefix/relative_href, destination is
outputDir/sceneId/basename of the key. -/
def copTasksFor (md : ManifestData) (sceneId outDir : String)
    (objs : List DataObject) : List DownloadTask :=
  objs.map fun o =>
    let key := md.dirKey ++ "/" ++ o.relative_href
    ⟨md.bucket, key, pathJoin (pathJoin outDir sceneId) (baseName key)⟩

/-- The per-scene loop of the Copernicus generate_download_plan: fetch and
parse the manifest, match the selected products, emit one task per match;
the first failure aborts the loop. -/
def copLoop (oracle : MOracle) (prods : List Product) (outDir : String) :
    List String → GenResult
  | [] => ⟨.ok [], []⟩
  | sceneId :: rest =>
    match oracle sceneId with
    | .error e => ⟨.error e, [sceneId]⟩
    | .ok md =>
      match filter_data_objects prods md.objects with
      | .error e => ⟨.error e, [sceneId]⟩
      | .ok objs =>
        let r := copLoop oracle prods outDir rest
        match r.res with
        | .error e => ⟨.error e, sceneId :: r.fetched⟩
        | .ok ts => ⟨.ok (copTasksFor md sceneId outDir objs ++ ts), sceneId :: r.fetched⟩

/-- Shallow embedding of the Copernicus generate_download_plan
(src/copernicus.rs): the two selection preconditions are checked before any
fetch, then the per-scene loop builds the task list. -/
def generateCop (oracle : MOracle) (sel : ImageSelection) (outDir : String) :
    GenResult :=
  match idsToDownload sel with
  | none => ⟨.error .noIds, []⟩
  | some ids =>
    match productsToDownload sel with
    | none => ⟨.error .noProducts, []⟩
    | some prods => copLoop oracle prods outDir ids

/-- A catalog asset of the element84 catalog record: its href. -/
structure Asset where
  href : String
deriving DecidableEq

/-- A catalog record: the asset map, as an association list keyed by asset
name (stac Item assets). -/
structure Item where
  assets : List (String × Asset)
deriving DecidableEq

/-- The remote side of the element84 resolver: fetch_single_item for one
scene id, as an oracle. -/
def IOracle := String → Except DlError Item

/-- get_s3_url_parts result: bucket and key (the region is unused by the
builder). The source extracts these with a regular expression over the
virtual-hosted S3 URL shape; the parse itself is kept abstract here. -/
def UrlParse := String → Except DlError (String × String)

/-- map_products_to_assets (element84): exact lookup of every selected
product id in the asset map; any miss fails the whole mapping. -/
def mapProductsToAssets (item : Item) : List Product → Option (List Asset)
  | [] => some []
  | p :: ps =>
    match (item.assets.find? (fun a => a.1 = p.id)).map (fun a => a.2) with
    | none => none
    | some a =>
      match mapProductsToAssets item ps with
      | none => none
      | some rest => some (a :: rest)

/-- The per-asset loop of the element84 builder: parse each asset href
into bucket and key and emit one task, destination
outputDir/sceneId/basename of the key; the first failure aborts. -/
def e84TasksFor (urlParse : UrlParse) (sceneId outDir : String) :
    List Asset → Except DlError (List DownloadTask)
  | [] => .ok []
  | a :: rest =>
    match urlParse a.href with
    | .error e => .error e
    | .ok (bucket, key) =>
      match e84TasksFor urlParse sceneId outDir rest with
      | .error e => .error e
      | .ok ts => .ok (⟨bucket, key, pathJoin (pathJoin outDir sceneId) (baseName key)⟩ :: ts)

/-- The per-scene loop of the element84 generate_download_plan. -/
def e84Loop (oracle : IOracle) (urlParse : UrlParse) (prods : List Product)
    (outDir : String) : List String → GenResult
  | [] => ⟨.ok [], []⟩
  | sceneId :: rest =>
    match oracle sceneId with
    | .error e => ⟨.error e, [sceneId]⟩
    | .ok item =>
      match mapProductsToAssets item prods with
      | none => ⟨.error .noAssets, [sceneId]⟩
      | some assets =>
        match e84TasksFor urlParse sceneId outDir assets with
        | .error e => ⟨.error e, [sceneId]⟩
        | .ok ts =>
          let r := e84Loop oracle urlParse prods outDir rest
          match r.res with
          | .error e => ⟨.error e, sceneId :: r.fetched⟩
          | .ok ts2 => ⟨.ok (ts ++ ts2), sceneId :: r.fetched⟩

/-- Shallow embedding of the element84 generate_download_plan
(src/element84/sentinel2collection1level2a.rs): the same two selection
preconditions, then the per-scene loop. -/
def generateE84 (oracle : IOracle) (urlParse : UrlParse)
    (sel : ImageSelection) (outDir : String) : GenResult :=
  match idsToDownload sel with
  | none => ⟨.error .noIds, []⟩
  | some ids =>
    match productsToDownload sel with
    | none => ⟨.error .noProducts, []⟩
    | some prods => e84Loop oracle urlParse prods outDir ids

/-- C1: a task whose destination is absent and whose partial file is a true
prefix of length haveLen < total of the remote content issues exactly one
ranged fetch starting at offset haveLen (so no byte before haveLen is
re-fetched), and ends with the destination holding the full remote content
of exactly total bytes. -/
theorem try_download_resumes_from_partial
    (p : SProvider) (bucket key output : String) (fs : FS)
    (content : List Byte) (haveLen total : Nat)
    (hdst : fs output = none)
    (hpart : fs (partPath output) = some (content.take haveLen))
    (hlt : haveLen < total)
    (hhead : p.headLen bucket key = some total)
    (hlen : content.length = total)
    (hbody : (p.rangeBody bucket key haveLen (total - 1)).flatten
      = content.drop haveLen) :
    (try_download p bucket key output fs).res = .ok () ∧
    (try_download p bucket key output fs).calls =
      [.head bucket key, .getRange bucket key haveLen (total - 1)] ∧
    (try_download p bucket key output fs).fs output = some content ∧
    content.length = total := by
  have hbc : (content.take haveLen).length = haveLen := by
    rw [List.length_take]
    omega
  simp only [try_download, hdst, hpart, Option.getD_some, hbc, hhead,
    if_pos hlt, writeChunks_eq, hbody, List.take_append_drop]
  refine ⟨trivial, trivial, ?_, hlen⟩
  simp [FS.upd]

/-- C2: a task whose destination already exists makes no network call and
leaves the whole file system untouched, and a plan all of whose task
destinations exist executes with no network call and an unchanged file
system, every task being attempted in order and skipped. -/
theorem execute_skips_existing :
    (∀ (p : SProvider) (bucket key output : String) (fs : FS) (c : List Byte),
        fs output = some c →
        try_download p bucket key output fs = ⟨.ok (), fs, []⟩) ∧
    (∀ (p : SProvider) (tasks : List DownloadTask) (fs : FS),
        (∀ t ∈ tasks, ∃ c, fs t.output = some c) →
        executePlan p tasks fs = ⟨.ok (), fs, [], tasks⟩) := by
  have single : ∀ (p : SProvider) (bucket key output : String) (fs : FS)
      (c : List Byte), fs output = some c →
      try_download p bucket key output fs = ⟨.ok (), fs, []⟩ := by
    intro p bucket key output fs c h
    simp only [try_download, h]
  refine ⟨single, ?_⟩
  intro p tasks
  induction tasks with
  | nil => intro fs _; rfl
  | cons t ts ih =>
    intro fs h
    obtain ⟨c, hc⟩ := h t (List.mem_cons_self t ts)
    have hts : ∀ u ∈ ts, ∃ c, fs u.output = some c := by
      intro u hu
      exact h u (List.mem_cons_of_mem t hu)
    simp only [executePlan, single p t.bucket t.key t.output fs c hc, ih fs hts]
    rfl

/-- C8: execution attempts tasks strictly in list order; when every task of
the preceding segment succeeds and the next task fails, the whole execution
returns that failure, having attempted exactly the preceding tasks and the
failing one, the tasks after it never being attempted. -/
theorem execute_stops_at_first_failure
    (p : SProvider) (pre post : List DownloadTask) (t : DownloadTask)
    (fs : FS) (e : DlError)
    (hpre : (executePlan p pre fs).res = .ok ())
    (hfail : (try_download p t.bucket t.key t.output
      (executePlan p pre fs).fs).res = .error e) :
    executePlan p (pre ++ t :: post) fs =
      ⟨.error e,
       (try_download p t.bucket t.key t.output (executePlan p pre fs).fs).fs,
       (executePlan p pre fs).calls ++
         (try_download p t.bucket t.key t.output (executePlan p pre fs).fs).calls,
       pre ++ [t]⟩ := by
  induction pre generalizing fs with
  | nil =>
    simp only [executePlan, List.nil_append] at hpre hfail ⊢
    cases hr : (try_download p t.bucket t.key t.output fs).res with
    | error e2 =>
      rw [hr] at hfail
      cases hfail
      simp only [executePlan, hr]
    | ok _ => rw [hr] at hfail; cases hfail
  | cons a pre2 ih =>
    cases hr : (try_download p a.bucket a.key a.output fs).res with
    | error e2 =>
      exfalso
      simp only [executePlan, hr] at hpre
      cases hpre
    | ok _ =>
      have hpre2 : (executePlan p pre2
          (try_download p a.bucket a.key a.output fs).fs).res = .ok () := by
        simpa only [executePlan, hr] using hpre
      have hfail2 : (try_download p t.bucket t.key t.output
          (executePlan p pre2
            (try_download p a.bucket a.key a.output fs).fs).fs).res
          = .error e := by
        simpa only [executePlan, hr] using hfail
      have hih := ih (try_download p a.bucket a.key a.output fs).fs hpre2 hfail2
      simp only [List.cons_append, executePlan, hr, hih]
      simp [executePlan, hr, hih, List.append_assoc]

/-- C9: when the destination is absent and the head response reports no
content length, the task fails with the size-unknown error, the only
network call being the head request (no ranged fetch), and the partial file
is left in place with its prior bytes (created empty when it did not
exist). -/
theorem try_download_size_unknown
    (p : SProvider) (bucket key output : String) (fs : FS)
    (hdst : fs output = none)
    (hhead : p.headLen bucket key = none) :
    (try_download p bucket key output fs).res = .error .sizeUnknown ∧
    (try_download p bucket key output fs).calls = [.head bucket key] ∧
    (try_download p bucket key output fs).fs (partPath output) =
      some ((fs (partPath output)).getD []) := by
  simp only [try_download, hdst, hhead]
  refine ⟨trivial, trivial, ?_⟩
  simp [FS.upd]

/-- C10: when the destination is absent and the partial file is strictly
longer than the reported remote size, the task issues no ranged fetch,
renames the oversized partial file onto the destination and reports
success, so the destination ends up longer than the remote object with no
error. -/
theorem try_download_oversized_partial
    (p : SProvider) (bucket key output : String) (fs : FS)
    (ovContent : List Byte) (total : Nat)
    (hdst : fs output = none)
    (hpart : fs (partPath output) = some ovContent)
    (hhead : p.headLen bucket key = some total)
    (hgt : total < ovContent.length) :
    (try_download p bucket key output fs).res = .ok () ∧
    (try_download p bucket key output fs).calls = [.head bucket key] ∧
    (try_download p bucket key output fs).fs output = some ovContent ∧
    total < ovContent.length := by
  have hnl : ¬ ovContent.length < total := by omega
  simp only [try_download, hdst, hpart, Option.getD_some, hhead, if_neg hnl]
  refine ⟨trivial, trivial, ?_, hgt⟩
  simp [FS.upd]

/-- Concrete five-byte remote content used by the executor witnesses. -/
def wContent : List Byte := [10, 20, 30, 40, 50]

/-- Concrete provider serving wContent, one chunk per ranged request. -/
def wProvider : SProvider :=
  ⟨fun _ _ => some 5, fun _ _ s e => [(wContent.drop s).take (e + 1 - s)]⟩

/-- Concrete provider whose head response carries no content length. -/
def wProviderNoLen : SProvider := ⟨fun _ _ => none, fun _ _ _ _ => []⟩

/-- Concrete file system: a two-byte partial file for out/a.bin. -/
def wFsResume : FS :=
  fun q => if q = "out/a.bin.partial" then some [10, 20] else none

/-- Concrete file system: the destination done.bin already present. -/
def wFsDone : FS := fun q => if q = "done.bin" then some [1, 2] else none

/-- Concrete file system: a seven-byte partial file for out/a.bin. -/
def wFsOversized : FS :=
  fun q => if q = "out/a.bin.partial" then some [9, 9, 9, 9, 9, 9, 9] else none

/-- Witness for C1 at a concrete resume point: two of five bytes on disk. -/
theorem try_download_resumes_from_partial_witness :
    (try_download wProvider "b" "k" "out/a.bin" wFsResume).res = .ok () ∧
    (try_download wProvider "b" "k" "out/a.bin" wFsResume).calls =
      [.head "b" "k", .getRange "b" "k" 2 4] ∧
    (try_download wProvider "b" "k" "out/a.bin" wFsResume).fs "out/a.bin" =
      some wContent ∧
    wContent.length = 5 :=
  try_download_resumes_from_partial wProvider "b" "k" "out/a.bin" wFsResume
    wContent 2 5 (by decide) (by decide) (by decide) (by decide) (by decide)
    (by decide)

/-- Witness for C2 at a concrete one-task plan whose destination exists. -/
theorem execute_skips_existing_witness :
    executePlan wProviderNoLen [⟨"b", "k", "done.bin"⟩] wFsDone =
      ⟨.ok (), wFsDone, [], [⟨"b", "k", "done.bin"⟩]⟩ :=
  execute_skips_existing.2 wProviderNoLen [⟨"b", "k", "done.bin"⟩] wFsDone
    (by
      intro t ht
      simp only [List.mem_singleton] at ht
      subst ht
      exact ⟨[1, 2], by decide⟩)

/-- Witness for C8: one skipped task, then a task failing with sizeUnknown,
then a task that is never attempted. -/
theorem execute_stops_at_first_failure_witness :
    executePlan wProviderNoLen
      ([⟨"b", "k", "done.bin"⟩] ++ ⟨"b", "k2", "miss.bin"⟩ :: [⟨"b", "k3", "later.bin"⟩])
      wFsDone =
      ⟨.error .sizeUnknown,
       (try_download wProviderNoLen "b" "k2" "miss.bin"
         (executePlan wProviderNoLen [⟨"b", "k", "done.bin"⟩] wFsDone).fs).fs,
       (executePlan wProviderNoLen [⟨"b", "k", "done.bin"⟩] wFsDone).calls ++
         (try_download wProviderNoLen "b" "k2" "miss.bin"
           (executePlan wProviderNoLen [⟨"b", "k", "done.bin"⟩] wFsDone).fs).calls,
       [⟨"b", "k", "done.bin"⟩] ++ [⟨"b", "k2", "miss.bin"⟩]⟩ :=
  execute_stops_at_first_failure wProviderNoLen [⟨"b", "k", "done.bin"⟩]
    [⟨"b", "k3", "later.bin"⟩] ⟨"b", "k2", "miss.bin"⟩ wFsDone .sizeUnknown
    (by rfl) (by rfl)

/-- Witness for C9 at a concrete task with a present partial file. -/
theorem try_download_size_unknown_witness :
    (try_download wProviderNoLen "b" "k" "out/a.bin" wFsResume).res =
      .error .sizeUnknown ∧
    (try_download wProviderNoLen "b" "k" "out/a.bin" wFsResume).calls =
      [.head "b" "k"] ∧
    (try_download wProviderNoLen "b" "k" "out/a.bin" wFsResume).fs
      (partPath "out/a.bin") = some ((wFsResume (partPath "out/a.bin")).getD []) :=
  try_download_size_unknown wProviderNoLen "b" "k" "out/a.bin" wFsResume
    (by decide) (by decide)

/-- Witness for C10 at a concrete seven-byte partial of a five-byte
object. -/
theorem try_download_oversized_partial_witness :
    (try_download wProvider "b" "k" "out/a.bin" wFsOversized).res = .ok () ∧
    (try_download wProvider "b" "k" "out/a.bin" wFsOversized).calls =
      [.head "b" "k"] ∧
    (try_download wProvider "b" "k" "out/a.bin" wFsOversized).fs "out/a.bin" =
      some [9, 9, 9, 9, 9, 9, 9] ∧
    (5 : Nat) < [9, 9, 9, 9, 9, 9, 9].length :=
  try_download_oversized_partial wProvider "b" "k" "out/a.bin" wFsOversized
    [9, 9, 9, 9, 9, 9, 9] 5 (by decide) (by decide) (by decide) (by decide)

theorem taskFromJson_taskToJson (t : DownloadTask) :
    taskFromJson (taskToJson t) = some t := rfl

theorem tasksFromJson_map (ts : List DownloadTask) :
    tasksFromJson (ts.map taskToJson) = some ts := by
  induction ts with
  | nil => rfl
  | cons t rest ih => simp [tasksFromJson, taskFromJson_taskToJson, ih]

theorem planFromJson_planToJson (p : DownloadPlan) :
    planFromJson (planToJson p) = some p := by
  simp [planFromJson, planToJson, jGet, jStr, tasksFromJson_map]

/-- C3: writing a plan to a path and reading that path back yields a plan
whose task list is identical to the original and whose selection_id equals
the original selection_id. -/
theorem plan_write_read_roundtrip (p : DownloadPlan) (path : String)
    (jfs : JFS) :
    ∃ q, planRead (planWrite p path jfs) path = .ok q ∧
      q.tasks = p.tasks ∧ q.selection_id = p.selection_id := by
  refine ⟨p, ?_, rfl, rfl⟩
  simp [planRead, planWrite, planFromJson_planToJson]

/-- C4: a selection with an empty identifier list, or an empty product
list, or no product flagged download, makes both plan builders fail
immediately with the corresponding selection-invalid error, with no
catalog, manifest or storage fetch performed. -/
theorem generate_invalid_selection
    (oracle : MOracle) (ioracle : IOracle) (urlParse : UrlParse)
    (sel : ImageSelection) (outDir : String)
    (h : sel.ids_to_download = [] ∨
      sel.products.filter (fun p => p.download) = []) :
    (∃ e, (generateCop oracle sel outDir).res = .error e ∧
      (e = .noIds ∨ e = .noProducts)) ∧
    (generateCop oracle sel outDir).fetched = [] ∧
    (∃ e, (generateE84 ioracle urlParse sel outDir).res = .error e ∧
      (e = .noIds ∨ e = .noProducts)) ∧
    (generateE84 ioracle urlParse sel outDir).fetched = [] := by
  by_cases hid : sel.ids_to_download.isEmpty
  · refine ⟨⟨.noIds, ?_, Or.inl rfl⟩, ?_, ⟨.noIds, ?_, Or.inl rfl⟩, ?_⟩ <;>
      simp [generateCop, generateE84, idsToDownload, hid]
  · rcases h with h | h
    · exfalso
      rw [h] at hid
      exact hid rfl
    · refine ⟨⟨.noProducts, ?_, Or.inr rfl⟩, ?_,
        ⟨.noProducts, ?_, Or.inr rfl⟩, ?_⟩ <;>
        simp [generateCop, generateE84, idsToDownload, productsToDownload,
          hid, h]

/-- Concrete oracle fixtures for the builder witnesses. -/
def wFailMOracle : MOracle := fun _ => .error (.fetchFail "unused")

def wFailIOracle : IOracle := fun _ => .error (.fetchFail "unused")

def wFailUrlParse : UrlParse := fun u => .error (.badUrl u)

/-- A selection whose only product is not flagged for download. -/
def wSelNoDl : ImageSelection :=
  ⟨"copernicus.sentinel2level2a", "Copernicus", "n", "d", "u",
   ["SCENE1"], [⟨"B02_10m", "Red", false⟩]⟩

/-- Witness for C4 at a selection with no download-flagged product. -/
theorem generate_invalid_selection_witness :
    (∃ e, (generateCop wFailMOracle wSelNoDl "out").res = .error e ∧
      (e = .noIds ∨ e = .noProducts)) ∧
    (generateCop wFailMOracle wSelNoDl "out").fetched = [] ∧
    (∃ e, (generateE84 wFailIOracle wFailUrlParse wSelNoDl "out").res = .error e ∧
      (e = .noIds ∨ e = .noProducts)) ∧
    (generateE84 wFailIOracle wFailUrlParse wSelNoDl "out").fetched = [] :=
  generate_invalid_selection wFailMOracle wFailIOracle wFailUrlParse wSelNoDl
    "out" (Or.inr (by decide))

theorem find?_of_unique {α : Type} (f : α → Bool) (l : List α) (o : α)
    (hmem : o ∈ l) (hf : f o = true)
    (huniq : ∀ x ∈ l, f x = true → x = o) :
    l.find? f = some o := by
  induction l with
  | nil => cases hmem
  | cons a rest ih =>
    by_cases ha : f a = true
    · have : a = o := huniq a (List.mem_cons_self a rest) ha
      subst this
      simp [List.find?, ha]
    · have hao : a ≠ o := fun h => ha (h ▸ hf)
      have hmem2 : o ∈ rest := by
        rcases List.mem_cons.mp hmem with h | h
        · exact absurd h.symm hao
        · exact h
      have huniq2 : ∀ x ∈ rest, f x = true → x = o := fun x hx hfx =>
        huniq x (List.mem_cons_of_mem a hx) hfx
      have ha2 : f a = false := by
        cases hfa : f a with
        | true => exact absurd hfa ha
        | false => rfl
      simp only [List.find?, ha2]
      exact ih hmem2 huniq2

/-- C6: per selected product id, resolution scans the manifest entries for
one whose id contains the product id as a substring: when exactly one entry
matches, that entry is returned whatever the scan order; a matched head
product conses its entry onto the remaining resolution; and when no entry
matches, resolution fails with the error naming that product id. -/
theorem manifest_resolution_matching :
    (∀ (pid : String) (objs : List DataObject) (o : DataObject),
        o ∈ objs → strContains o.id pid = true →
        (∀ o2 ∈ objs, strContains o2.id pid = true → o2 = o) →
        objs.find? (fun x => strContains x.id pid) = some o) ∧
    (∀ (p : Product) (ps : List Product) (objs : List DataObject)
        (o : DataObject) (r : List DataObject),
        objs.find? (fun x => strContains x.id p.id) = some o →
        filter_data_objects ps objs = .ok r →
        filter_data_objects (p :: ps) objs = .ok (o :: r)) ∧
    (∀ (p : Product) (ps : List Product) (objs : List DataObject),
        (∀ o ∈ objs, strContains o.id p.id = false) →
        filter_data_objects (p :: ps) objs = .error (.noMatch p.id)) := by
  refine ⟨?_, ?_, ?_⟩
  · intro pid objs o hmem hf huniq
    exact find?_of_unique (fun x => strContains x.id pid) objs o hmem hf huniq
  · intro p ps objs o r hfind hrest
    simp [filter_data_objects, hfind, hrest]
  · intro p ps objs hnone
    have : objs.find? (fun x => strContains x.id p.id) = none := by
      rw [List.find?_eq_none]
      intro x hx
      simp [hnone x hx]
    simp [filter_data_objects, this]

/-- The two manifest entries of the worked example in the spec. -/
def wB02 : DataObject :=
  ⟨"IMG_DATA_Band_B02_10m_Tile1_Data", 90, "GRANULE/g/B02_10m.jp2",
   "SHA3-256", "d0"⟩

def wTCI : DataObject :=
  ⟨"IMG_DATA_Band_TCI_10m_Tile1_Data", 100, "GRANULE/g/TCI_10m.jp2",
   "SHA3-256", "d1"⟩

/-- Witness for C6 on the worked example: requesting TCI_10m returns the
TCI entry and not the B02 entry; requesting B99_10m fails naming it. -/
theorem manifest_resolution_matching_witness :
    [wB02, wTCI].find? (fun x => strContains x.id "TCI_10m") = some wTCI ∧
    filter_data_objects [⟨"B99_10m", "none", true⟩] [wB02, wTCI] =
      .error (.noMatch "B99_10m") :=
  ⟨manifest_resolution_matching.1 "TCI_10m" [wB02, wTCI] wTCI (by decide)
      (by decide) (by decide),
   manifest_resolution_matching.2.2 ⟨"B99_10m", "none", true⟩ [] [wB02, wTCI]
      (by decide)⟩

/-- C7: a dataObject child lacking any required piece (ID attribute,
byteStream size, fileLocation href, checksum name or checksum text) is
silently omitted from the parse result, which still succeeds, while a
document with no dataObjectSection descendant makes the parse fail. -/
theorem manifest_parse_skip_and_fatal :
    (∀ (doc sec : Xml) (pre post : List Xml) (c : Xml),
        doc.descendants.find? (Xml.tagIs "dataObjectSection") = some sec →
        Xml.childList sec = pre ++ c :: post →
        dataObjectNew c = none →
        manifestParse doc =
          .ok (pre.filterMap dataObjectNew ++ post.filterMap dataObjectNew)) ∧
    (∀ n, extractId n = none → dataObjectNew n = none) ∧
    (∀ n, extractFilesize n = none → dataObjectNew n = none) ∧
    (∀ n, extractRelativeHref n = none → dataObjectNew n = none) ∧
    (∀ n, extractChecksumAlg n = none → dataObjectNew n = none) ∧
    (∀ n, extractChecksumText n = none → dataObjectNew n = none) ∧
    (∀ doc, doc.descendants.find? (Xml.tagIs "dataObjectSection") = none →
        manifestParse doc = .error .noSection) := by
  refine ⟨?_, ?_, ?_, ?_, ?_, ?_, ?_⟩
  · intro doc sec pre post c hfind hchildren hnone
    simp [manifestParse, hfind, hchildren, List.filterMap_append,
      List.filterMap_cons, hnone]
  · intro n h
    simp [dataObjectNew, h]
  · intro n h
    cases h1 : extractId n <;> simp [dataObjectNew, h1, h]
  · intro n h
    cases h1 : extractId n <;> cases h2 : extractFilesize n <;>
      simp [dataObjectNew, h1, h2, h]
  · intro n h
    cases h1 : extractId n <;> cases h2 : extractFilesize n <;>
      cases h3 : extractRelativeHref n <;>
      simp [dataObjectNew, h1, h2, h3, h]
  · intro n h
    cases h1 : extractId n <;> cases h2 : extractFilesize n <;>
      cases h3 : extractRelativeHref n <;> cases h4 : extractChecksumAlg n <;>
      simp [dataObjectNew, h1, h2, h3, h4, h]
  · intro doc h
    simp [manifestParse, h]

/-- Witness fixtures for C7: a section holding one complete dataObject and
one lacking its ID attribute. -/
def wGoodObj : Xml :=
  .elem "dataObject" [("ID", "IMG_DATA_Band_TCI_10m_Tile1_Data")]
    [.elem "byteStream" [("size", "100")]
      [.elem "fileLocation" [("href", "./GRANULE/g/TCI_10m.jp2")] [],
       .elem "checksum" [("checksumName", "SHA3-256")] [.text "d1"]]]

def wBadObj : Xml := .elem "dataObject" [] []

def wDoc : Xml :=
  .elem "xfdu" [] [.elem "dataObjectSection" [] [wGoodObj, wBadObj]]

/-- Witness for C7: the incomplete object is omitted and the parse
succeeds; a document without the section fails. -/
theorem manifest_parse_skip_and_fatal_witness :
    manifestParse wDoc =
      .ok ([wGoodObj].filterMap dataObjectNew ++
        List.filterMap dataObjectNew []) ∧
    manifestParse (.elem "top" [] []) = .error .noSection :=
  ⟨manifest_parse_skip_and_fatal.1 wDoc
      (.elem "dataObjectSection" [] [wGoodObj, wBadObj]) [wGoodObj] [] wBadObj
      rfl rfl rfl,
   manifest_parse_skip_and_fatal.2.2.2.2.2.2 (.elem "top" [] []) rfl⟩

theorem filter_data_objects_length (ps : List Product)
    (objs : List DataObject) (r : List DataObject)
    (h : filter_data_objects ps objs = .ok r) : r.length = ps.length := by
  induction ps generalizing r with
  | nil =>
    simp [filter_data_objects] at h
    simp [← h]
  | cons p rest ih =>
    simp only [filter_data_objects] at h
    cases hf : objs.find? (fun o => strContains o.id p.id) with
    | none => rw [hf] at h; cases h
    | some o =>
      rw [hf] at h
      cases hr : filter_data_objects rest objs with
      | error e => rw [hr] at h; cases h
      | ok r2 =>
        rw [hr] at h
        cases h
        simp [ih r2 hr]

theorem copTasksFor_length (m : ManifestData) (i outDir : String)
    (objs : List DataObject) : (copTasksFor m i outDir objs).length = objs.length := by
  simp [copTasksFor]

theorem copTasksFor_output (m : ManifestData) (i outDir : String)
    (objs : List DataObject) (t : DownloadTask)
    (h : t ∈ copTasksFor m i outDir objs) :
    t.output = pathJoin (pathJoin outDir i) (baseName t.key) := by
  simp only [copTasksFor, List.mem_map] at h
  obtain ⟨o, _, ho⟩ := h
  subst ho
  rfl

theorem length_flatMap_const {α β : Type} (l : List α) (f : α → List β)
    (n : Nat) (h : ∀ a ∈ l, (f a).length = n) :
    (l.flatMap f).length = l.length * n := by
  induction l with
  | nil => simp
  | cons a rest ih =>
    have ha := h a (List.mem_cons_self a rest)
    have hr := ih (fun x hx => h x (List.mem_cons_of_mem a hx))
    simp [List.flatMap_cons, ha, hr, Nat.succ_mul, Nat.add_comm]

theorem copLoop_ok (oracle : MOracle) (prods : List Product) (outDir : String)
    (md : String → ManifestData) (fo : String → List DataObject)
    (ids : List String)
    (ho : ∀ i ∈ ids, oracle i = .ok (md i))
    (hm : ∀ i ∈ ids, filter_data_objects prods (md i).objects = .ok (fo i)) :
    copLoop oracle prods outDir ids =
      ⟨.ok (ids.flatMap fun i => copTasksFor (md i) i outDir (fo i)), ids⟩ := by
  induction ids with
  | nil => rfl
  | cons i rest ih =>
    have hoi := ho i (List.mem_cons_self i rest)
    have hmi := hm i (List.mem_cons_self i rest)
    have hrest := ih (fun x hx => ho x (List.mem_cons_of_mem i hx))
      (fun x hx => hm x (List.mem_cons_of_mem i hx))
    simp [copLoop, hoi, hmi, hrest, List.flatMap_cons]

theorem mapProductsToAssets_length (item : Item) (ps : List Product)
    (r : List Asset) (h : mapProductsToAssets item ps = some r) :
    r.length = ps.length := by
  induction ps generalizing r with
  | nil =>
    simp [mapProductsToAssets] at h
    simp [← h]
  | cons p rest ih =>
    simp only [mapProductsToAssets] at h
    cases hf : (item.assets.find? (fun a => a.1 = p.id)).map (fun a => a.2) with
    | none => rw [hf] at h; cases h
    | some a =>
      rw [hf] at h
      cases hr : mapProductsToAssets item rest with
      | none => rw [hr] at h; cases h
      | some r2 =>
        rw [hr] at h
        cases h
        simp [ih r2 hr]

theorem e84TasksFor_length (urlParse : UrlParse) (i outDir : String)
    (assets : List Asset) (ts : List DownloadTask)
    (h : e84TasksFor urlParse i outDir assets = .ok ts) :
    ts.length = assets.length := by
  induction assets generalizing ts with
  | nil =>
    simp [e84TasksFor] at h
    simp [← h]
  | cons a rest ih =>
    simp only [e84TasksFor] at h
    cases hu : urlParse a.href with
    | error e => rw [hu] at h; cases h
    | ok bk =>
      rw [hu] at h
      cases hr : e84TasksFor urlParse i outDir rest with
      | error e => rw [hr] at h; cases h
      | ok ts2 =>
        rw [hr] at h
        obtain ⟨bucket, key⟩ := bk
        cases h
        simp [ih ts2 hr]

theorem e84TasksFor_output (urlParse : UrlParse) (i outDir : String)
    (assets : List Asset) (ts : List DownloadTask)
    (h : e84TasksFor urlParse i outDir assets = .ok ts) :
    ∀ t ∈ ts, t.output = pathJoin (pathJoin outDir i) (baseName t.key) := by
  induction assets generalizing ts with
  | nil =>
    simp [e84TasksFor] at h
    subst h
    intro t ht
    cases ht
  | cons a rest ih =>
    simp only [e84TasksFor] at h
    cases hu : urlParse a.href with
    | error e => rw [hu] at h; cases h
    | ok bk =>
      rw [hu] at h
      cases hr : e84TasksFor urlParse i outDir rest with
      | error e => rw [hr] at h; cases h
      | ok ts2 =>
        rw [hr] at h
        obtain ⟨bucket, key⟩ := bk
        cases h
        intro t ht
        rcases List.mem_cons.mp ht with ht | ht
        · subst ht; rfl
        · exact ih ts2 hr t ht

theorem e84Loop_ok (oracle : IOracle) (urlParse : UrlParse)
    (prods : List Product) (outDir : String)
    (item : String → Item) (ass : String → List Asset)
    (ets : String → List DownloadTask) (ids : List String)
    (ho : ∀ i ∈ ids, oracle i = .ok (item i))
    (ha : ∀ i ∈ ids, mapProductsToAssets (item i) prods = some (ass i))
    (ht : ∀ i ∈ ids, e84TasksFor urlParse i outDir (ass i) = .ok (ets i)) :
    e84Loop oracle urlParse prods outDir ids =
      ⟨.ok (ids.flatMap ets), ids⟩ := by
  induction ids with
  | nil => rfl
  | cons i rest ih =>
    have hoi := ho i (List.mem_cons_self i rest)
    have hai := ha i (List.mem_cons_self i rest)
    have hti := ht i (List.mem_cons_self i rest)
    have hrest := ih (fun x hx => ho x (List.mem_cons_of_mem i hx))
      (fun x hx => ha x (List.mem_cons_of_mem i hx))
      (fun x hx => ht x (List.mem_cons_of_mem i hx))
    simp [e84Loop, hoi, hai, hti, hrest, List.flatMap_cons]

/-- C5: for a valid selection, each builder produces exactly one task per
(deduplicated scene identifier, download-flagged product) pair that its
resolver matches — so none at all for products not flagged download — and
every produced task has destination outputRootDir/sceneIdentifier/basename
of its remote key. -/
theorem generate_one_task_per_pair :
    (∀ (oracle : MOracle) (sel : ImageSelection) (outDir : String)
        (md : String → ManifestData) (fo : String → List DataObject),
        sel.ids_to_download ≠ [] →
        sel.products.filter (fun p => p.download) ≠ [] →
        (∀ i ∈ sel.ids_to_download.dedup, oracle i = .ok (md i)) →
        (∀ i ∈ sel.ids_to_download.dedup,
          filter_data_objects (sel.products.filter (fun p => p.download))
            (md i).objects = .ok (fo i)) →
        (generateCop oracle sel outDir).res = .ok
          (sel.ids_to_download.dedup.flatMap
            (fun i => copTasksFor (md i) i outDir (fo i))) ∧
        (sel.ids_to_download.dedup.flatMap
            (fun i => copTasksFor (md i) i outDir (fo i))).length =
          sel.ids_to_download.dedup.length *
            (sel.products.filter (fun p => p.download)).length ∧
        (∀ t ∈ sel.ids_to_download.dedup.flatMap
            (fun i => copTasksFor (md i) i outDir (fo i)),
          ∃ i ∈ sel.ids_to_download.dedup,
            t.output = pathJoin (pathJoin outDir i) (baseName t.key))) ∧
    (∀ (oracle : IOracle) (urlParse : UrlParse) (sel : ImageSelection)
        (outDir : String) (item : String → Item)
        (ass : String → List Asset) (ets : String → List DownloadTask),
        sel.ids_to_download ≠ [] →
        sel.products.filter (fun p => p.download) ≠ [] →
        (∀ i ∈ sel.ids_to_download.dedup, oracle i = .ok (item i)) →
        (∀ i ∈ sel.ids_to_download.dedup,
          mapProductsToAssets (item i)
            (sel.products.filter (fun p => p.download)) = some (ass i)) →
        (∀ i ∈ sel.ids_to_download.dedup,
          e84TasksFor urlParse i outDir (ass i) = .ok (ets i)) →
        (generateE84 oracle urlParse sel outDir).res = .ok
          (sel.ids_to_download.dedup.flatMap ets) ∧
        (sel.ids_to_download.dedup.flatMap ets).length =
          sel.ids_to_download.dedup.length *
            (sel.products.filter (fun p => p.download)).length ∧
        (∀ t ∈ sel.ids_to_download.dedup.flatMap ets,
          ∃ i ∈ sel.ids_to_download.dedup,
            t.output = pathJoin (pathJoin outDir i) (baseName t.key))) := by
  constructor
  · intro oracle sel outDir md fo hids hprods ho hm
    have hidne : ¬ sel.ids_to_download.isEmpty := by
      simpa [List.isEmpty_iff] using hids
    have hpne : ¬ (sel.products.filter (fun p => p.download)).isEmpty := by
      simpa [List.isEmpty_iff] using hprods
    have hgen : (generateCop oracle sel outDir) =
        copLoop oracle (sel.products.filter (fun p => p.download)) outDir
          sel.ids_to_download.dedup := by
      simp [generateCop, idsToDownload, productsToDownload, hidne, hpne]
    refine ⟨?_, ?_, ?_⟩
    · rw [hgen, copLoop_ok oracle _ outDir md fo _ ho hm]
    · refine length_flatMap_const _ _ _ ?_
      intro i hi
      rw [copTasksFor_length]
      exact filter_data_objects_length _ _ _ (hm i hi)
    · intro t ht
      rw [List.mem_flatMap] at ht
      obtain ⟨i, hi, hti⟩ := ht
      exact ⟨i, hi, copTasksFor_output _ _ _ _ _ hti⟩
  · intro oracle urlParse sel outDir item ass ets hids hprods ho ha ht
    have hidne : ¬ sel.ids_to_download.isEmpty := by
      simpa [List.isEmpty_iff] using hids
    have hpne : ¬ (sel.products.filter (fun p => p.download)).isEmpty := by
      simpa [List.isEmpty_iff] using hprods
    have hgen : (generateE84 oracle urlParse sel outDir) =
        e84Loop oracle urlParse (sel.products.filter (fun p => p.download))
          outDir sel.ids_to_download.dedup := by
      simp [generateE84, idsToDownload, productsToDownload, hidne, hpne]
    refine ⟨?_, ?_, ?_⟩
    · rw [hgen, e84Loop_ok oracle urlParse _ outDir item ass ets _ ho ha ht]
    · refine length_flatMap_const _ _ _ ?_
      intro i hi
      rw [e84TasksFor_length urlParse i outDir (ass i) (ets i) (ht i hi)]
      exact mapProductsToAssets_length _ _ _ (ha i hi)
    · intro t htm
      rw [List.mem_flatMap] at htm
      obtain ⟨i, hi, hti⟩ := htm
      exact ⟨i, hi, e84TasksFor_output urlParse i outDir (ass i) (ets i)
        (ht i hi) t hti⟩

/-- Witness fixtures for C5: one scene, one flagged and one unflagged
product, for both builders. -/
def wSelC5 : ImageSelection :=
  ⟨"copernicus.sentinel2level2a", "Copernicus", "n", "d", "u",
   ["SCENE1"], [⟨"TCI_10m", "True Color", true⟩, ⟨"B02_10m", "Red", false⟩]⟩

def wMD : ManifestData := ⟨"eodata", "Sentinel-2/p", [wB02, wTCI]⟩

def wMOracleC5 : MOracle := fun _ => .ok wMD

def wItemC5 : Item :=
  ⟨[("TCI_10m", ⟨"https://bkt.s3.us-west-2.amazonaws.com/scenes/S1/TCI.tif"⟩)]⟩

def wIOracleC5 : IOracle := fun _ => .ok wItemC5

def wUrlParseC5 : UrlParse := fun _ => .ok ("bkt", "scenes/S1/TCI.tif")

/-- Witness for C5 on the concrete selection: each builder produces the
single (SCENE1, flagged product) task with the expected destination. -/
theorem generate_one_task_per_pair_witness :
    ((generateCop wMOracleC5 wSelC5 "out").res = .ok
      (wSelC5.ids_to_download.dedup.flatMap
        (fun i => copTasksFor wMD i "out" [wTCI])) ∧
     (wSelC5.ids_to_download.dedup.flatMap
        (fun i => copTasksFor wMD i "out" [wTCI])).length =
       wSelC5.ids_to_download.dedup.length *
         (wSelC5.products.filter (fun p => p.download)).length ∧
     (∀ t ∈ wSelC5.ids_to_download.dedup.flatMap
        (fun i => copTasksFor wMD i "out" [wTCI]),
       ∃ i ∈ wSelC5.ids_to_download.dedup,
         t.output = pathJoin (pathJoin "out" i) (baseName t.key))) ∧
    ((generateE84 wIOracleC5 wUrlParseC5 wSelC5 "out").res = .ok
      (wSelC5.ids_to_download.dedup.flatMap
        (fun i => [⟨"bkt", "scenes/S1/TCI.tif",
          pathJoin (pathJoin "out" i) (baseName "scenes/S1/TCI.tif")⟩])) ∧
     (wSelC5.ids_to_download.dedup.flatMap
        (fun i => [(⟨"bkt", "scenes/S1/TCI.tif",
          pathJoin (pathJoin "out" i) (baseName "scenes/S1/TCI.tif")⟩ :
            DownloadTask)])).length =
       wSelC5.ids_to_download.dedup.length *
         (wSelC5.products.filter (fun p => p.download)).length ∧
     (∀ t ∈ wSelC5.ids_to_download.dedup.flatMap
        (fun i => [(⟨"bkt", "scenes/S1/TCI.tif",
          pathJoin (pathJoin "out" i) (baseName "scenes/S1/TCI.tif")⟩ :
            DownloadTask)]),
       ∃ i ∈ wSelC5.ids_to_download.dedup,
         t.output = pathJoin (pathJoin "out" i) (baseName t.key))) :=
  ⟨generate_one_task_per_pair.1 wMOracleC5 wSelC5 "out" (fun _ => wMD)
      (fun _ => [wTCI]) (by decide) (by decide) (fun _ _ => rfl)
      (fun _ _ => rfl),
   generate_one_task_per_pair.2 wIOracleC5 wUrlParseC5 wSelC5 "out"
      (fun _ => wItemC5)
      (fun _ => [⟨"https://bkt.s3.us-west-2.amazonaws.com/scenes/S1/TCI.tif"⟩])
      (fun i => [⟨"bkt", "scenes/S1/TCI.tif",
        pathJoin (pathJoin "out" i) (baseName "scenes/S1/TCI.tif")⟩])
      (by decide) (by decide) (fun _ _ => rfl) (fun _ _ => rfl)
      (fun _ _ => rfl)⟩
